import Mathlib

/-!
Shallow embedding of the image-editor client (`src/app/components/ImageEditor.tsx`)
and its API route (`src/unnamed/part_000`), for checking the specification.

Rasters are modelled as lists of RGBA pixels in row-major order: the browser's
flat `ImageData.data` array of bytes with stride 4 is viewed as the list of its
4-byte pixels, so the source loops `for (i = 0; i < data.length; i += 4)` become
per-pixel maps.  Byte values are natural numbers (the source only compares and
stores constants 0, 128, 255).  JPEG quality values, which in the source are the
floats 0.7/0.3 decreased in steps of 0.2 with floor 0.1, are carried in tenths
as natural numbers (7/3, step 2, floor 1); the guard `quality > 0.1` and the
clamp `Math.max(0.1, q - 0.2)` depend only on these tenths, so the integer model
has the same control flow.  Encoding and decoding done by the browser
(`canvas.toBlob`, image decode) are abstracted by an explicit environment.
-/

namespace ImageEditor

/-- One RGBA pixel: red, green, blue, alpha channels, each a byte 0..255. -/
structure RGBA where
  r : ℕ
  g : ℕ
  b : ℕ
  a : ℕ
deriving DecidableEq

/-- Opaque white, as painted by `fillStyle = 'white'` and written by the mask
exporter for pixels to edit. -/
def whitePixel : RGBA := ⟨255, 255, 255, 255⟩

/-- Fully transparent black, as written by the mask exporter for pixels to
preserve. -/
def transparentPixel : RGBA := ⟨0, 0, 0, 0⟩

/-- Opaque black, as produced by `fillStyle = 'black'; fillRect(...)` on the
mask canvas. -/
def blackOpaque : RGBA := ⟨0, 0, 0, 255⟩

/-- Per-pixel rule of the mask exporter: the body of the loop in
`generateMaskImage` (ImageEditor.tsx lines 352-368).  `isWhite` is
`maskImageData.data[i] > 128` (the red channel); white pixels become opaque
white `(255,255,255,255)`, others become transparent `(0,0,0,0)`. -/
def alphaMaskPixel (p : RGBA) : RGBA :=
  if 128 < p.r then whitePixel else transparentPixel

/-- `generateMaskImage` (ImageEditor.tsx lines 319-377), restricted to its
pixel-level content: reads the mask canvas pixels and writes a fresh image in
which every pixel is transformed by `alphaMaskPixel`.  (The surrounding code
allocates the alpha canvas at the same dimensions and PNG-encodes the result,
which is lossless, so the produced AlphaMask is exactly this pixel list.) -/
def generateMaskImage (pix : List RGBA) : List RGBA :=
  pix.map alphaMaskPixel

/-! ## The MaskBuffer (the hidden mask canvas) -/

/-- The mask canvas: its raster dimensions and its pixels in row-major order. -/
structure Mask where
  width : ℕ
  height : ℕ
  pix : List RGBA
deriving DecidableEq

/-- A pixel counts as white under the threshold the source uses everywhere
(`data[i] > 128` on the red channel). -/
def isWhiteAt (p : RGBA) : Bool := decide (128 < p.r)

/-- Number of white pixels of the mask buffer. -/
def whiteCount (m : Mask) : ℕ := m.pix.countP isWhiteAt

/-- Whether the pixel at flat index `i` of a raster of width `w` lies in the
filled circle of radius `r` centred at `(x, y)`:
`arc(x, y, r, 0, 2π); fill()` paints the pixels whose centre is within
distance `r` of the centre.  The pixel at flat index `i` has device
coordinates `(i % w, i / w)`. -/
def inBrushDisc (x y r : ℤ) (w i : ℕ) : Bool :=
  decide ((((i % w : ℕ) : ℤ) - x) ^ 2 + (((i / w : ℕ) : ℤ) - y) ^ 2 ≤ r ^ 2)

/-- Paint the filled circle onto the pixel list, starting at flat index `i`:
pixels inside the disc become opaque white, all others are left unchanged. -/
def paintFrom (x y r : ℤ) (w : ℕ) : ℕ → List RGBA → List RGBA
  | _, [] => []
  | i, p :: rest =>
      (if inBrushDisc x y r w i then whitePixel else p) :: paintFrom x y r w (i + 1) rest

/-- `drawMask` (ImageEditor.tsx lines 262-277): draws a filled white circle of
radius `brushSize / 2` at `(x, y)` on the mask canvas.  Device-pixel
coordinates are modelled as integers. -/
def drawMask (m : Mask) (x y brushSize : ℤ) : Mask :=
  { m with pix := paintFrom x y (brushSize / 2) m.width 0 m.pix }

/-- `clearMask` (ImageEditor.tsx lines 299-316), restricted to the mask canvas:
`fillStyle = 'black'; fillRect(0, 0, maskCanvas.width, maskCanvas.height)`
resets every pixel of the mask buffer to opaque black; the dimensions are
untouched.  (The function also restores the display canvas from the cached
original image data, which does not involve the mask buffer.) -/
def clearMask (m : Mask) : Mask :=
  { m with pix := List.replicate (m.width * m.height) blackOpaque }

/-! ## The Compressor -/

/-- A browser `File` as far as this program observes it: name, MIME type,
byte size, whether the browser can decode it as an image, and its decoded
pixel dimensions when it can. -/
structure JSFile where
  name : String
  mime : String
  size : ℕ
  decodable : Bool
  width : ℕ
  height : ℕ
deriving DecidableEq

/-- The browser facilities the compressor relies on, abstracted: whether
`canvas.getContext('2d')` yields a context, whether `canvas.toBlob` produces a
blob at the given settings, and the byte size of the JPEG blob it produces.
Both take the JPEG quality in tenths and the target dimension. -/
structure EncEnv where
  ctxOk : Bool
  blobOk : ℕ → ℕ → Bool
  encSize : ℕ → ℕ → ℕ

/-- The size check used throughout `compressImage`: `maxSizeKB * 1024` bytes
with the default (and only) argument `maxSizeKB = 4000`, i.e. 4,096,000. -/
def compressThreshold : ℕ := 4000 * 1024

/-- Dimension computation at the top of `compressWithSettings` (ImageEditor.tsx
lines 50-63): scale the decoded image so its longer side equals the target
dimension, preserving aspect ratio; leave it unchanged if the longer side is
already within the target. -/
def scaledDims (w h d : ℕ) : ℕ × ℕ :=
  if h < w then (if d < w then (d, h * d / w) else (w, h))
  else (if d < h then (w * d / h, d) else (w, h))

/-- The `File` constructed from the blob in `compressWithSettings`
(ImageEditor.tsx lines 74-77): the original file name, MIME type
`'image/jpeg'`, and the encoded blob's bytes. -/
def mkCompressedFile (env : EncEnv) (f : JSFile) (q d : ℕ) : JSFile :=
  { name := f.name
    mime := "image/jpeg"
    size := env.encSize q d
    decodable := true
    width := (scaledDims f.width f.height d).1
    height := (scaledDims f.width f.height d).2 }

/-- `compressWithSettings` (ImageEditor.tsx lines 49-104), with an explicit
fuel argument to make the recursion structural; `none` means the fuel ran out
(the termination theorem shows fuel `d + 1` always suffices).  Quality is in
tenths: the source guard `targetQuality > 0.1 && targetDimension > 400` is
`1 < q ∧ 400 < d`, and the retry settings
`Math.max(0.1, targetQuality - 0.2)` / `Math.max(400, targetDimension - 200)`
are `max 1 (q - 2)` / `max 400 (d - 200)`.  If the 2d context or the blob is
unavailable the source resolves with the original file; if the encoded file is
within the budget, or the floors stop the retry, it resolves with the encoded
file. -/
def compressWithSettings (env : EncEnv) (f : JSFile) : ℕ → ℕ → ℕ → Option JSFile
  | 0, _, _ => none
  | fuel + 1, q, d =>
      if env.ctxOk then
        if env.blobOk q d then
          if compressThreshold < (mkCompressedFile env f q d).size then
            if 1 < q ∧ 400 < d then
              compressWithSettings env f fuel (max 1 (q - 2)) (max 400 (d - 200))
            else some (mkCompressedFile env f q d)
          else some (mkCompressedFile env f q d)
        else some f
      else some f

/-- Initial quality chosen in `img.onload` (ImageEditor.tsx line 46): 0.3 for
files over 10MB, 0.7 otherwise — in tenths. -/
def initialQuality (f : JSFile) : ℕ :=
  if 10 * 1024 * 1024 < f.size then 3 else 7

/-- Initial maximum dimension chosen in `img.onload` (ImageEditor.tsx line
47): 800 for files over 10MB, 1200 otherwise. -/
def initialDimension (f : JSFile) : ℕ :=
  if 10 * 1024 * 1024 < f.size then 800 else 1200

/-- `compressImage` (ImageEditor.tsx lines 33-115): if the file is within
`maxSizeKB * 1024` bytes, resolve it unchanged; otherwise try to decode it —
on decode failure (`img.onerror`) resolve the original file unchanged, on
success run `compressWithSettings` at the initial settings.  The promise never
rejects. -/
def compressImage (env : EncEnv) (f : JSFile) : JSFile :=
  if f.size ≤ compressThreshold then f
  else if f.decodable then
    (compressWithSettings env f (initialDimension f + 1)
        (initialQuality f) (initialDimension f)).getD f
  else f

/-- Whether `compressImage` attempts a re-encode on this file, i.e. proceeds
past the early size check to create the `Image` and run
`compressWithSettings` on load: exactly when the size exceeds the
threshold. -/
def compressAttemptsReencode (f : JSFile) : Bool :=
  decide (compressThreshold < f.size)

/-! ## The upload flow -/

/-- Outcome of `handleImageUpload` (ImageEditor.tsx lines 118-159) for a
selected file: either the compressed file loads as an image and the canvas is
set up at its dimensions, or the image load fails (`img.onerror`, line 144)
and the error banner is set, halting the flow before canvas setup.  (Reading
the file's bytes into a data URL is lossless and modelled as succeeding.) -/
inductive UploadOutcome where
  | canvasReady (w h : ℕ)
  | loadError (msg : String)
deriving DecidableEq

/-- `handleImageUpload` (ImageEditor.tsx lines 118-159): compress the selected
file, then load the result as an image; on load success set up the canvases at
the image's dimensions, on load failure report the load error. -/
def handleImageUpload (env : EncEnv) (f : JSFile) : UploadOutcome :=
  let cf := compressImage env f
  if cf.decodable then .canvasReady cf.width cf.height
  else .loadError "Failed to load image. Please try another file."

/-! ## Client-side submission (handleSubmit) -/

/-- JavaScript `String.prototype.trim`: strip leading and trailing whitespace.
Defined over the character list so it is fully computable. -/
def jsTrim (s : String) : String :=
  String.mk (((s.toList.dropWhile Char.isWhitespace).reverse.dropWhile
      Char.isWhitespace).reverse)

/-- The editor state `handleSubmit` reads: the (compressed) uploaded file held
in `originalFile`, the pixels of the hidden mask canvas, and the prompt input
value. -/
structure EditorState where
  originalFile : Option JSFile
  maskPix : List RGBA
  prompt : String
deriving DecidableEq

/-- The multipart form body built in `handleSubmit` (ImageEditor.tsx lines
415-418): field `image` is `originalFile`, field `mask` is the PNG encoding of
the mask canvas (lossless, hence identified with its pixel list), field
`prompt` is the raw prompt string. -/
structure EditRequest where
  image : JSFile
  maskPixels : List RGBA
  prompt : String
deriving DecidableEq

/-- What `handleSubmit` does before any network activity: either it stops with
the validation error banner, or it posts an `EditRequest`. -/
inductive SubmitOutcome where
  | validationError (msg : String)
  | request (r : EditRequest)
deriving DecidableEq

/-- `handleSubmit` (ImageEditor.tsx lines 390-448), up to the network call: if
no file is loaded or the prompt trims to empty, set the error banner and
return without fetching; otherwise encode the mask canvas as a PNG blob and
POST `{image: originalFile, mask: maskBlob, prompt}` to `/api/edit-image`. -/
def handleSubmit (s : EditorState) : SubmitOutcome :=
  match s.originalFile with
  | none => .validationError "Please upload an image and enter a prompt"
  | some f =>
      if jsTrim s.prompt = "" then
        .validationError "Please upload an image and enter a prompt"
      else
        .request { image := f, maskPixels := s.maskPix, prompt := s.prompt }

/-! ## Server route (POST handler in the API route file) -/

/-- The server's size cap: `4 * 1024 * 1024` bytes. -/
def serverMaxSize : ℕ := 4 * 1024 * 1024

/-- `isValidImageFile` (API route lines 23-25): the MIME type starts with
`image/`.  Stated over character lists so it is fully computable. -/
def isValidImageFile (f : JSFile) : Bool :=
  "image/".toList.isPrefixOf f.mime.toList

/-- The fixed preamble the route wraps around the trimmed user prompt (API
route lines 90-99), with the trimmed prompt spliced into the middle. -/
def enhancedPrompt (p : String) : String :=
  "You are a professional landscape designer. You are given an image of a landscape and a mask indicating specific areas to edit.\n\nYour task:\n1. Only edit the areas specified by the mask (white/opaque areas)\n2. Maintain the original landscape\x27s style, lighting, and perspective, and the original house structure and roof, driveway, road, sidewalk, and other structures\n3. Ensure the edited elements blend naturally with the existing landscape\n\nEdit request: "
    ++ p
    ++ "\n\nPlease seamlessly integrate this edit into the masked areas while preserving the natural look of the landscape."

/-- What the `POST` handler does with a request: reject it with a status and
error message before contacting OpenAI, or proceed to call
`openai.images.edit` with the composed prompt. -/
inductive POSTResult where
  | reject (status : ℕ) (msg : String)
  | callExternal (prompt : String)
deriving DecidableEq

/-- Message of the missing-fields rejection (API route line 45). -/
def missingFieldsMsg : String := "Missing required fields: image, mask, and prompt"

/-- The validation phase of the `POST` handler (API route lines 33-119), up to
the external call.  The form fields may be absent (`null`); an empty prompt
string is falsy in JavaScript, so it takes the missing-fields branch.  Each
check mirrors the source order: presence, image size, mask size, image type,
mask type, trimmed prompt non-empty; only then is the external API called with
the enhanced prompt.  (The dynamic size figures interpolated into the
too-large messages are omitted from the message text.) -/
def POST (image mask : Option JSFile) (prompt : Option String) : POSTResult :=
  match image, mask, prompt with
  | some img, some msk, some p =>
      if p = "" then .reject 400 missingFieldsMsg
      else if serverMaxSize < img.size then
        .reject 400 "Image file too large. Maximum allowed: 4MB. Please resize your image."
      else if serverMaxSize < msk.size then
        .reject 400 "Mask file too large. Maximum allowed: 4MB."
      else if ¬ isValidImageFile img then
        .reject 400 "Invalid image file type. Please upload a valid image file."
      else if ¬ isValidImageFile msk then
        .reject 400 "Invalid mask file type. Please provide a valid mask image."
      else if jsTrim p = "" then
        .reject 400 "Prompt must be a non-empty string"
      else .callExternal (enhancedPrompt (jsTrim p))
  | _, _, _ => .reject 400 missingFieldsMsg

/-- Whether a `POST` outcome reaches `openai.images.edit`. -/
def callsExternal : POSTResult → Bool
  | .reject _ _ => false
  | .callExternal _ => true

/-! ## Canvas lifecycle (setupCanvas and the operations that follow it) -/

/-- The canvas-related state after an upload: the source image dimensions and
the mask canvas. -/
structure CanvasState where
  srcW : ℕ
  srcH : ℕ
  mask : Mask
deriving DecidableEq

/-- `setupCanvas` (ImageEditor.tsx lines 162-199) on an image of dimensions
`w × h`: sets both the display canvas and the mask canvas to exactly the image
dimensions and fills the mask canvas with black. -/
def setupCanvas (w h : ℕ) : CanvasState :=
  { srcW := w
    srcH := h
    mask := { width := w, height := h, pix := List.replicate (w * h) blackOpaque } }

/-- The operations available between one upload and the next that involve the
mask canvas: drawing a stroke point, clearing the mask, generating the alpha
mask (which writes only a fresh alpha canvas), and recomputing the tinted
overlay (which writes only the display canvas). -/
inductive EditorOp where
  | draw (x y brushSize : ℤ)
  | clear
  | generate
  | overlay

/-- Effect of each post-upload operation on the canvas state.  `generate`
(`generateMaskImage`) reads the mask canvas and writes a newly created alpha
canvas; `overlay` (`updateCanvasWithMask`) reads the mask canvas and writes
the display canvas; neither modifies the mask canvas. -/
def applyOp (st : CanvasState) : EditorOp → CanvasState
  | .draw x y brushSize => { st with mask := drawMask st.mask x y brushSize }
  | .clear => { st with mask := clearMask st.mask }
  | .generate => st
  | .overlay => st

/-! ## Concrete inputs used by witnesses and counterexamples -/

/-- A browser environment in which the 2d context is available and every
encode succeeds, producing a 100-byte blob. -/
def env0 : EncEnv := { ctxOk := true, blobOk := fun _ _ => true, encSize := fun _ _ => 100 }

/-- A small decodable PNG upload. -/
def sampleFile : JSFile :=
  { name := "photo.png", mime := "image/png", size := 1000
    decodable := true, width := 4, height := 3 }

/-- A decodable upload of 4,050,000 bytes: over the 4,000,000-byte figure the
specification names, but under the 4,096,000-byte check the code performs. -/
def bigFile : JSFile :=
  { name := "big.png", mime := "image/png", size := 4050000
    decodable := true, width := 4000, height := 3000 }

/-- A decodable upload of 5,000,000 bytes, over the size check. -/
def hugeFile : JSFile :=
  { name := "huge.png", mime := "image/png", size := 5000000
    decodable := true, width := 4000, height := 3000 }

/-- A zero-byte file; the browser cannot decode it as an image. -/
def zeroFile : JSFile :=
  { name := "empty.png", mime := "image/png", size := 0
    decodable := false, width := 0, height := 0 }

/-! ## Theorems -/

/-- Helper: the mask exporter transforms the pixel at each index by the
per-pixel rule. -/
theorem generateMaskImage_getD (pix : List RGBA) :
    ∀ i : ℕ, i < pix.length →
      (generateMaskImage pix).getD i transparentPixel
        = alphaMaskPixel (pix.getD i transparentPixel) := by
  unfold generateMaskImage
  induction pix with
  | nil => intro i hi; simp at hi
  | cons p rest ih =>
      intro i hi
      cases i with
      | zero => simp
      | succ j =>
          simp only [List.map_cons, List.getD_cons_succ]
          exact ih j (by simpa using hi)

/-- Claim C2: for every pixel of the MaskBuffer, the exported AlphaMask pixel
is `(255,255,255,255)` when the mask pixel's red channel exceeds 128 and
`(0,0,0,0)` otherwise; in particular its alpha is 255 iff the red channel
exceeds 128. -/
theorem alphaMask_pixel_rule (pix : List RGBA) (i : ℕ) (hi : i < pix.length) :
    (generateMaskImage pix).getD i transparentPixel
        = (if 128 < (pix.getD i transparentPixel).r then whitePixel
           else transparentPixel) ∧
    (((generateMaskImage pix).getD i transparentPixel).a = 255 ↔
        128 < (pix.getD i transparentPixel).r) := by
  have h1 := generateMaskImage_getD pix i hi
  rw [h1]
  unfold alphaMaskPixel
  by_cases hc : 128 < (pix.getD i transparentPixel).r
  · rw [if_pos hc]
    exact ⟨rfl, iff_of_true rfl hc⟩
  · rw [if_neg hc]
    exact ⟨rfl, iff_of_false (by decide) hc⟩

/-- Witness for C2 at a one-pixel mask whose red channel is 200. -/
theorem alphaMask_pixel_rule_witness :
    0 < ([⟨200, 0, 0, 255⟩] : List RGBA).length ∧
    ((generateMaskImage [⟨200, 0, 0, 255⟩]).getD 0 transparentPixel
        = (if 128 < (([⟨200, 0, 0, 255⟩] : List RGBA).getD 0 transparentPixel).r
           then whitePixel else transparentPixel) ∧
     (((generateMaskImage [⟨200, 0, 0, 255⟩]).getD 0 transparentPixel).a = 255 ↔
        128 < (([⟨200, 0, 0, 255⟩] : List RGBA).getD 0 transparentPixel).r)) :=
  ⟨by decide, alphaMask_pixel_rule [⟨200, 0, 0, 255⟩] 0 (by decide)⟩

/-- Claim C9: clearing the mask and then exporting it yields an AlphaMask in
which every pixel is fully transparent black `(0,0,0,0)`. -/
theorem clear_then_generate_all_transparent (m : Mask) :
    ((generateMaskImage (clearMask m).pix).all
        fun p => decide (p = transparentPixel)) = true := by
  have hb : alphaMaskPixel blackOpaque = transparentPixel := by decide
  simp [generateMaskImage, clearMask, List.map_replicate, hb, List.all_eq_true,
    List.mem_replicate]

/-- Helper: no post-upload operation changes the source dimensions or the
mask canvas dimensions. -/
theorem applyOp_dims (st : CanvasState) (op : EditorOp) :
    (applyOp st op).srcW = st.srcW ∧ (applyOp st op).srcH = st.srcH ∧
    (applyOp st op).mask.width = st.mask.width ∧
    (applyOp st op).mask.height = st.mask.height := by
  cases op <;> simp [applyOp, drawMask, clearMask]

/-- Helper: a whole sequence of post-upload operations preserves the source
and mask dimensions. -/
theorem foldl_applyOp_dims (ops : List EditorOp) :
    ∀ st : CanvasState,
      (ops.foldl applyOp st).srcW = st.srcW ∧
      (ops.foldl applyOp st).srcH = st.srcH ∧
      (ops.foldl applyOp st).mask.width = st.mask.width ∧
      (ops.foldl applyOp st).mask.height = st.mask.height := by
  induction ops with
  | nil => intro st; simp
  | cons op rest ih =>
      intro st
      have h1 := applyOp_dims st op
      have h2 := ih (applyOp st op)
      simp only [List.foldl_cons]
      omega

/-- Claim C7: after `setupCanvas` on an upload of dimensions `w × h`, the mask
canvas dimensions equal the source image dimensions, and the invariant holds
after any sequence of subsequent operations until the next upload. -/
theorem mask_dims_equal_source_dims (w h : ℕ) (ops : List EditorOp) :
    (ops.foldl applyOp (setupCanvas w h)).mask.width
        = (ops.foldl applyOp (setupCanvas w h)).srcW ∧
    (ops.foldl applyOp (setupCanvas w h)).mask.height
        = (ops.foldl applyOp (setupCanvas w h)).srcH ∧
    (ops.foldl applyOp (setupCanvas w h)).srcW = w ∧
    (ops.foldl applyOp (setupCanvas w h)).srcH = h := by
  have h2 := foldl_applyOp_dims ops (setupCanvas w h)
  simp only [setupCanvas] at h2 ⊢
  omega

/-- Helper: painting the brush disc over a pixel list never decreases the
number of white pixels, since each pixel is either left unchanged or set to
opaque white. -/
theorem countP_le_countP_paintFrom (x y r : ℤ) (w : ℕ) :
    ∀ (l : List RGBA) (i : ℕ),
      l.countP isWhiteAt ≤ (paintFrom x y r w i l).countP isWhiteAt := by
  intro l
  induction l with
  | nil => intro i; simp [paintFrom]
  | cons p rest ih =>
      intro i
      unfold paintFrom
      rw [List.countP_cons, List.countP_cons]
      refine Nat.add_le_add (ih (i + 1)) ?_
      by_cases hd : inBrushDisc x y r w i = true
      · rw [if_pos hd]
        have hw : isWhiteAt whitePixel = true := by decide
        rw [hw]
        split_ifs <;> simp_all
      · rw [if_neg hd]

/-- Claim C8: drawing a stroke point whose brush disc lies entirely within the
mask bounds never decreases the white-pixel count of the MaskBuffer — drawing
only paints white and never erases. -/
theorem draw_stroke_white_monotone (m : Mask) (x y brushSize : ℤ)
    (hx0 : 0 ≤ x - brushSize / 2) (hx1 : x + brushSize / 2 ≤ (m.width : ℤ))
    (hy0 : 0 ≤ y - brushSize / 2) (hy1 : y + brushSize / 2 ≤ (m.height : ℤ)) :
    whiteCount m ≤ whiteCount (drawMask m x y brushSize) := by
  unfold whiteCount drawMask
  exact countP_le_countP_paintFrom x y (brushSize / 2) m.width m.pix 0

/-- Witness for C8: a 2-pixel-diameter stroke at `(1,1)` on an all-black 3×3
mask, entirely in bounds. -/
theorem draw_stroke_white_monotone_witness :
    ((0 : ℤ) ≤ 1 - 2 / 2 ∧
     (1 : ℤ) + 2 / 2 ≤ ((Mask.mk 3 3 (List.replicate 9 blackOpaque)).width : ℤ)) ∧
    whiteCount (Mask.mk 3 3 (List.replicate 9 blackOpaque)) ≤
      whiteCount (drawMask (Mask.mk 3 3 (List.replicate 9 blackOpaque)) 1 1 2) :=
  ⟨by decide,
   draw_stroke_white_monotone (Mask.mk 3 3 (List.replicate 9 blackOpaque)) 1 1 2
     (by decide) (by decide) (by decide) (by decide)⟩

/-- Helper: the compression retry recursion always yields a result when given
fuel greater than the current target dimension: every retry strictly
decreases the dimension, which the guard keeps above 400. -/
theorem compressWithSettings_isSome_of_lt (env : EncEnv) (f : JSFile) :
    ∀ (fuel q d : ℕ), d < fuel →
      (compressWithSettings env f fuel q d).isSome = true := by
  intro fuel
  induction fuel with
  | zero => intro q d hd; exact absurd hd (Nat.not_lt_zero d)
  | succ fuel ih =>
      intro q d hd
      unfold compressWithSettings
      split_ifs with h1 h2 h3 h4
      · exact ih (max 1 (q - 2)) (max 400 (d - 200)) (by omega)
      all_goals rfl

/-- Claim C4: the Compressor's retry process terminates after finitely many
steps: `d + 1` recursion steps always suffice from target dimension `d`, and
whatever the encoder does — budget never reached, floors hit — a result file
is produced rather than a failure. -/
theorem compressor_retry_terminates (env : EncEnv) (f : JSFile) (q d : ℕ) :
    (compressWithSettings env f (d + 1) q d).isSome = true :=
  compressWithSettings_isSome_of_lt env f (d + 1) q d (Nat.lt_succ_self d)

/-- Helper: when the 2d context is available and every encode produces a blob,
the retry recursion returns one of the re-encoded files (at some quality and
dimension settings), never the original. -/
theorem compressWithSettings_yields_compressed (env : EncEnv) (f : JSFile)
    (hctx : env.ctxOk = true) (hblob : ∀ q d, env.blobOk q d = true) :
    ∀ (fuel q d : ℕ), d < fuel →
      ∃ q2 d2, compressWithSettings env f fuel q d
          = some (mkCompressedFile env f q2 d2) := by
  intro fuel
  induction fuel with
  | zero => intro q d hd; exact absurd hd (Nat.not_lt_zero d)
  | succ fuel ih =>
      intro q d hd
      unfold compressWithSettings
      rw [if_pos hctx, if_pos (hblob q d)]
      split_ifs with h3 h4
      · exact ih (max 1 (q - 2)) (max 400 (d - 200)) (by omega)
      · exact ⟨q, d, rfl⟩
      · exact ⟨q, d, rfl⟩

/-- Claim C10: whenever the Compressor re-encodes (input over the size check,
decode succeeds, every encode produces a blob), the returned file has MIME
type `image/jpeg` and keeps the original file's name, regardless of the
input's MIME type. -/
theorem reencode_output_is_jpeg_with_input_name (env : EncEnv) (f : JSFile)
    (hctx : env.ctxOk = true) (hblob : ∀ q d, env.blobOk q d = true)
    (hsize : compressThreshold < f.size) (hdec : f.decodable = true) :
    (compressImage env f).mime = "image/jpeg" ∧
    (compressImage env f).name = f.name := by
  obtain ⟨q2, d2, heq⟩ :=
    compressWithSettings_yields_compressed env f hctx hblob
      (initialDimension f + 1) (initialQuality f) (initialDimension f)
      (Nat.lt_succ_self _)
  unfold compressImage
  rw [if_neg (by omega), if_pos hdec, heq]
  exact ⟨rfl, rfl⟩

/-- Witness for C10: a 5,000,000-byte PNG in an environment where every encode
succeeds comes back as a JPEG named like the input. -/
theorem reencode_output_is_jpeg_witness :
    (env0.ctxOk = true ∧ compressThreshold < hugeFile.size ∧
     hugeFile.decodable = true) ∧
    ((compressImage env0 hugeFile).mime = "image/jpeg" ∧
     (compressImage env0 hugeFile).name = hugeFile.name) :=
  ⟨⟨rfl, by decide, rfl⟩,
   reencode_output_is_jpeg_with_input_name env0 hugeFile rfl (fun _ _ => rfl)
     (by decide) rfl⟩

/-- Counterexample to C3 as stated: a 4,050,000-byte file exceeds the claimed
4,000,000-byte budget, yet the Compressor passes it through unchanged and
attempts no re-encoding — the size check in the code is
`maxSizeKB * 1024 = 4000 * 1024 = 4,096,000` bytes, not 4,000,000. -/
theorem compress_budget_ce :
    4000000 < bigFile.size ∧ compressImage env0 bigFile = bigFile ∧
    compressAttemptsReencode bigFile = false := by decide

/-- Claim C3 (amended): the Compressor's pass-through threshold is 4,096,000
bytes (`4000 KB × 1024`): files of at most 4,096,000 bytes are returned
unchanged, and a re-encode is attempted exactly for files over 4,096,000
bytes. -/
theorem compress_threshold_is_4096000 (env : EncEnv) (f : JSFile) :
    compressAttemptsReencode f = decide (4096000 < f.size) ∧
    (f.size ≤ 4096000 → compressImage env f = f) := by
  have ht : compressThreshold = 4096000 := by norm_num [compressThreshold]
  constructor
  · rw [compressAttemptsReencode, ht]
  · intro hle
    unfold compressImage
    rw [if_pos (by omega)]

/-- Witness for C3 (amended) at a 1,000-byte file: at most 4,096,000 bytes,
returned unchanged. -/
theorem compress_threshold_is_4096000_witness :
    sampleFile.size ≤ 4096000 ∧ compressImage env0 sampleFile = sampleFile :=
  ⟨by decide, (compress_threshold_is_4096000 env0 sampleFile).2 (by decide)⟩

/-- Counterexample to C1 as stated: on a state with one unpainted (black)
mask pixel, submission posts the mask canvas's own pixels — opaque black
`(0,0,0,255)` — while the Mask Exporter's AlphaMask maps that pixel to
transparent `(0,0,0,0)`.  The submitted mask bytes are therefore not the
AlphaMask produced by `generateMaskImage`. -/
theorem submit_mask_not_alphaMask_ce :
    handleSubmit { originalFile := some sampleFile, maskPix := [blackOpaque],
                   prompt := "add a pond" }
      = .request { image := sampleFile, maskPixels := [blackOpaque],
                   prompt := "add a pond" } ∧
    generateMaskImage [blackOpaque] ≠ [blackOpaque] := by decide

/-- Claim C1 (amended): for every submission that passes validation, the
EditRequest sent to the gateway is `{image bytes, MaskBuffer bytes, prompt}`:
the mask field is the PNG encoding of the mask canvas itself (black/white,
fully opaque), not the AlphaMask produced by the Mask Exporter, which is used
only for on-screen display and download. -/
theorem submit_sends_maskBuffer (s : EditorState) (f : JSFile)
    (hf : s.originalFile = some f) (hp : jsTrim s.prompt ≠ "") :
    handleSubmit s
      = .request { image := f, maskPixels := s.maskPix, prompt := s.prompt } := by
  simp [handleSubmit, hf, hp]

/-- Witness for C1 (amended) at a concrete valid state. -/
theorem submit_sends_maskBuffer_witness :
    ((⟨some sampleFile, [blackOpaque, whitePixel], "add a pond"⟩ :
        EditorState).originalFile = some sampleFile ∧
     jsTrim "add a pond" ≠ "") ∧
    handleSubmit ⟨some sampleFile, [blackOpaque, whitePixel], "add a pond"⟩
      = .request { image := sampleFile, maskPixels := [blackOpaque, whitePixel],
                   prompt := "add a pond" } :=
  ⟨⟨rfl, by decide⟩,
   submit_sends_maskBuffer ⟨some sampleFile, [blackOpaque, whitePixel], "add a pond"⟩
     sampleFile rfl (by decide)⟩

/-- Counterexample to C5 as stated: on the zero-byte (undecodable) file the
Compressor does not fail — it resolves with the input unchanged (the
zero-byte size passes the early size check; an oversized undecodable file
would be resolved unchanged by the `img.onerror` handler).  The load error the
user sees comes from the upload handler's subsequent image load, not from the
Compressor. -/
theorem compressor_resolves_zero_byte_ce :
    zeroFile.size = 0 ∧ compressImage env0 zeroFile = zeroFile ∧
    handleImageUpload env0 zeroFile
      = .loadError "Failed to load image. Please try another file." := by decide

/-- Claim C5 (amended): for every zero-byte or undecodable input, the
compression/upload step reports a load error rather than hanging — but the
Compressor itself resolves the input unchanged, and it is the caller's image
load that fails, sets the error banner, and halts the upload flow before
canvas setup. -/
theorem undecodable_upload_reports_load_error (env : EncEnv) (f : JSFile)
    (h : f.decodable = false) :
    compressImage env f = f ∧
    handleImageUpload env f
      = .loadError "Failed to load image. Please try another file." := by
  have hc : compressImage env f = f := by
    unfold compressImage
    split_ifs with h1 h2
    · rfl
    · rw [h] at h2; exact absurd h2 (by simp)
    · rfl
  exact ⟨hc, by simp [handleImageUpload, hc, h]⟩

/-- Witness for C5 (amended) at the zero-byte file. -/
theorem undecodable_upload_reports_load_error_witness :
    zeroFile.decodable = false ∧
    (compressImage env0 zeroFile = zeroFile ∧
     handleImageUpload env0 zeroFile
       = .loadError "Failed to load image. Please try another file.") :=
  ⟨rfl, undecodable_upload_reports_load_error env0 zeroFile rfl⟩

/-- Claim C6: when the prompt is empty or whitespace-only, the client's
`handleSubmit` stops with the validation error banner and issues no network
call; and the server's `POST` handler, for any request carrying such a
prompt, returns a 400 validation error without ever reaching the external
API. -/
theorem empty_prompt_no_network_call (s : EditorState) (img msk : Option JSFile)
    (h : jsTrim s.prompt = "") :
    handleSubmit s
      = .validationError "Please upload an image and enter a prompt" ∧
    callsExternal (POST img msk (some s.prompt)) = false ∧
    ∃ msg, POST img msk (some s.prompt) = .reject 400 msg := by
  have hserver : ∃ msg, POST img msk (some s.prompt) = .reject 400 msg := by
    cases img with
    | none => exact ⟨missingFieldsMsg, rfl⟩
    | some i =>
        cases msk with
        | none => exact ⟨missingFieldsMsg, rfl⟩
        | some k =>
            simp only [POST]
            split_ifs <;> exact ⟨_, rfl⟩
  refine ⟨?_, ?_, hserver⟩
  · cases hof : s.originalFile with
    | none => simp [handleSubmit, hof]
    | some f => simp [handleSubmit, hof, h]
  · obtain ⟨msg, hmsg⟩ := hserver
    rw [hmsg]
    rfl

/-- Witness for C6 at a whitespace-only prompt. -/
theorem empty_prompt_no_network_call_witness :
    jsTrim "   " = "" ∧
    (handleSubmit ⟨some sampleFile, [], "   "⟩
        = .validationError "Please upload an image and enter a prompt" ∧
     callsExternal (POST (some sampleFile) (some sampleFile) (some "   ")) = false ∧
     ∃ msg, POST (some sampleFile) (some sampleFile) (some "   ")
        = .reject 400 msg) :=
  ⟨by decide,
   empty_prompt_no_network_call ⟨some sampleFile, [], "   "⟩
     (some sampleFile) (some sampleFile) (by decide)⟩

end ImageEditor
